import Mathlib

/-!
Verification development for the duration-expression parser of the `sw`
terminal stopwatch (Rust sources under `src/`).

Shallow embedding notes.

* Strings are modelled at two levels: a source string is a `List Char`
  (its Unicode scalar values), and the grapheme-cluster segmentation the
  Rust code obtains from the `unicode_segmentation` crate is modelled as a
  `Seg := List Cluster` with `Cluster := List Char`, whose flattening is
  the string.  Byte offsets are derived from `Char.utf8Size`.  All parser
  functions take the segmentation where the Rust code iterates grapheme
  clusters.  For the concrete inputs appearing in theorems every cluster
  is a single scalar, which matches the real segmentation.
* Rust functions that can panic are embedded as `Option`-valued functions
  where `none` models a panic (an out-of-bounds / non-boundary string
  slice, a `.unwrap()` of `None`, or an `unreachable!()` that is reached).
  Release-build semantics are used for `usize` arithmetic: subtraction
  wraps modulo 2^64 (`usizeSub`); a debug build would already panic at the
  subtraction, a release build panics at the subsequent slice, and both
  are modelled by the eventual `none`.
* `core::time::Duration` is modelled as a total nanosecond count
  (`Nat`) bounded by `DUR_MAX = u64::MAX * 10^9 + 999_999_999`; the
  checked constructors/operations compare against that bound, which is
  exactly the representability condition of the Rust type.
* The newer `parse.rs` of the repository (the module declaring
  `ReadDur::parse`, `parse_frac`, `ParseFracErr`, `ErrKind`,
  `ParseErr::new`, `ByteSpan::new_all`, `ByteSpan::trim_whitespace` and
  `MAX_NANOS_CHARS`) is not present under `src/` — only its callers
  (`parse/sw.rs`, `parse/unit.rs`, `state.rs`) and its tests (`tests.rs`)
  are.  Those definitions are modelled from the spec, and each such
  definition carries a doc comment starting with `Modelled from the
  spec:`.  Everything else is translated from the source files.
-/

namespace Sw

/-! ## Characters, whitespace, byte lengths, segmentations -/

/-- Rust's `char::is_whitespace` (the Unicode `White_Space` property). -/
def isWS (c : Char) : Bool :=
  c = ' ' ∨ c = '\t' ∨ c = '\n' ∨ c.toNat = 0x0b ∨ c.toNat = 0x0c ∨ c = '\r' ∨
  c.toNat = 0x85 ∨ c.toNat = 0xa0 ∨ c.toNat = 0x1680 ∨
  (0x2000 ≤ c.toNat ∧ c.toNat ≤ 0x200a) ∨
  c.toNat = 0x2028 ∨ c.toNat = 0x2029 ∨ c.toNat = 0x202f ∨
  c.toNat = 0x205f ∨ c.toNat = 0x3000

/-- UTF-8 byte length of a list of characters. -/
def byteLen (cs : List Char) : Nat := (cs.map Char.utf8Size).sum

/-- One grapheme cluster, as a list of Unicode scalar values. -/
abbrev Cluster := List Char

/-- A segmentation of a string into grapheme clusters, in order.  The
string itself is the flattening. -/
abbrev Seg := List Cluster

/-- Byte length of a cluster. -/
def clusterBytes (g : Cluster) : Nat := byteLen g

/-- The underlying string (list of scalars) of a segmentation. -/
def flat (gs : Seg) : List Char := gs.foldr (fun g acc => g ++ acc) []

/-- Segmentation of a string each of whose scalars is its own grapheme
cluster (true of all ASCII strings and of the concrete inputs used
below). -/
def segOf (s : String) : Seg := s.data.map (fun c => [c])

/-- The clusters of a segmentation paired with their byte offsets,
starting at `off` (models `UnicodeSegmentation::grapheme_indices`). -/
def gidxFrom : Nat → Seg → List (Nat × Cluster)
  | _, [] => []
  | off, g :: rest => (off, g) :: gidxFrom (off + clusterBytes g) rest

/-- `grapheme_indices` from offset 0. -/
def gidx (gs : Seg) : List (Nat × Cluster) := gidxFrom 0 gs

/-- Whether the raw byte sequence of the input contains a `:` byte.  In
UTF-8 the byte 0x3a occurs exactly where the scalar `:` occurs, so this
is `s.as_bytes().contains(&b':')` of the dispatcher. -/
def hasColon (gs : Seg) : Bool := (flat gs).contains ':'

/-! ## `usize` arithmetic (release-build semantics) -/

/-- 2^64. -/
def USIZE : Nat := 18446744073709551616

/-- Wrapping `usize` subtraction (release build).  A debug build panics
when `b > a`; the wrapped result then makes the very next slice of the
span panic, which the embedding reports as `none`. -/
def usizeSub (a b : Nat) : Nat := if b ≤ a then a - b else a + USIZE - b

/-! ## ByteSpan (`src/parse.rs`, plus the two methods only declared in the
missing newer `parse.rs`) -/

/-- `ByteSpan`: a byte range into a source string (`src/parse.rs`
lines 48-52; the source string is carried alongside as in the Rust
struct). -/
structure ByteSpan where
  start : Nat
  len : Nat
  src : List Char
deriving DecidableEq, Repr

/-- `ByteSpan::new`. -/
def ByteSpan.new (start len : Nat) (src : List Char) : ByteSpan := ⟨start, len, src⟩

/-- `ByteSpan::shift_start_left` (`start -= bytes; len += bytes`). -/
def ByteSpan.shift_start_left (s : ByteSpan) (bytes : Nat) : ByteSpan :=
  { s with start := usizeSub s.start bytes, len := s.len + bytes }

/-- `ByteSpan::shift_start_right` (`start += bytes; len -= bytes`). -/
def ByteSpan.shift_start_right (s : ByteSpan) (bytes : Nat) : ByteSpan :=
  { s with start := s.start + bytes, len := usizeSub s.len bytes }

/-- Drop the first `n` bytes of a character list; `none` iff `n` is not a
character boundary of the list (which makes a Rust string slice panic). -/
def utf8Drop : List Char → Nat → Option (List Char)
  | cs, 0 => some cs
  | [], _ + 1 => none
  | c :: cs, n + 1 =>
      if c.utf8Size ≤ n + 1 then utf8Drop cs (n + 1 - c.utf8Size) else none

/-- Take the first `n` bytes of a character list; `none` iff `n` is not a
character boundary of the list. -/
def utf8Take : List Char → Nat → Option (List Char)
  | _, 0 => some []
  | [], _ + 1 => none
  | c :: cs, n + 1 =>
      if c.utf8Size ≤ n + 1 then (utf8Take cs (n + 1 - c.utf8Size)).map (c :: ·) else none

/-- `ByteSpan::get`: `&src[start .. start + len]`.  `none` models the
panic of an out-of-bounds or non-boundary slice. -/
def ByteSpan.get (s : ByteSpan) : Option (List Char) :=
  (utf8Drop s.src s.start).bind (fun rest => utf8Take rest s.len)

/-- `ByteSpan::get_before`: `&src[.. start]`. -/
def ByteSpan.get_before (s : ByteSpan) : Option (List Char) := utf8Take s.src s.start

/-- `ByteSpan::get_after`: `&src[start + len ..]`. -/
def ByteSpan.get_after (s : ByteSpan) : Option (List Char) := utf8Drop s.src (s.start + s.len)

/-- Modelled from the spec: `ByteSpan::new_all` is declared by the newer
`parse.rs` missing from `src/` and used by `parse/unit.rs`; it is the span
of the whole source string. -/
def ByteSpan.new_all (src : List Char) : ByteSpan := ⟨0, byteLen src, src⟩

/-- `str::trim` — both edges stripped of whitespace characters. -/
def trimChars (cs : List Char) : List Char :=
  ((cs.dropWhile isWS).reverse.dropWhile isWS).reverse

/-- Modelled from the spec: `ByteSpan::trim_whitespace` is declared by the
newer `parse.rs` missing from `src/`; per spec §4.1 it shrinks both edges
of the span past whitespace (leading-edge trimming is also pinned by the
in-repo test `tests::parse::unit::whitespace`, which needs `" 1"` to trim
to `"1"` before the integer parse).  A span whose byte range is invalid
for its source is returned unchanged; the caller's next slice of it then
models the panic. -/
def ByteSpan.trim_whitespace (s : ByteSpan) : ByteSpan :=
  match s.get with
  | none => s
  | some cs =>
      let lead := byteLen (cs.takeWhile isWS)
      let rest := cs.dropWhile isWS
      let trail := byteLen (rest.reverse.takeWhile isWS)
      ⟨s.start + lead, s.len - lead - trail, s.src⟩

/-! ## Integer parsing (`u64::from_str` / `u8::from_str`) -/

/-- The kinds of `core::num::ParseIntError` reachable from unsigned
parses. -/
inductive IntErrKind where
  | Empty
  | InvalidDigit
  | PosOverflow
deriving DecidableEq, Repr

/-- Numeric value of an ASCII digit. -/
def digitVal (c : Char) : Option Nat :=
  if '0' ≤ c ∧ c ≤ '9' then some (c.toNat - '0'.toNat) else none

/-- Digit-accumulation loop of `from_str_radix` with per-step overflow
check against `bound` (the type's maximum value). -/
def parseUIntLoop (bound : Nat) : List Char → Nat → Except IntErrKind Nat
  | [], acc => .ok acc
  | c :: cs, acc =>
      match digitVal c with
      | none => .error .InvalidDigit
      | some d =>
          if bound < acc * 10 + d then .error .PosOverflow
          else parseUIntLoop bound cs (acc * 10 + d)

/-- Rust's unsigned `from_str`: empty input is `Empty`; a leading `+` is
allowed but must be followed by at least one digit (`"+"` alone is
`InvalidDigit`); any non-digit is `InvalidDigit`; exceeding `bound` is
`PosOverflow`. -/
def parseUInt (bound : Nat) (cs : List Char) : Except IntErrKind Nat :=
  match cs with
  | [] => .error .Empty
  | '+' :: rest => if rest.isEmpty then .error .InvalidDigit else parseUIntLoop bound rest 0
  | _ => parseUIntLoop bound cs 0

/-- `u64::MAX`. -/
def u64Max : Nat := 18446744073709551615

/-- `u32::MAX`. -/
def u32Max : Nat := 4294967295

/-- `str::parse::<u64>`. -/
def parseU64 (cs : List Char) : Except IntErrKind Nat := parseUInt u64Max cs

/-- `str::parse::<u8>`. -/
def parseU8 (cs : List Char) : Except IntErrKind Nat := parseUInt 255 cs

/-! ## Durations -/

/-- Nanoseconds per second. -/
def NANOS_PER_SEC : Nat := 1000000000

/-- Maximum total nanoseconds representable by `core::time::Duration`
(`u64::MAX` seconds plus `999_999_999` nanoseconds). -/
def DUR_MAX : Nat := u64Max * NANOS_PER_SEC + (NANOS_PER_SEC - 1)

/-- Modelled from the spec: `crate::MAX_NANOS_CHARS`, declared in the
missing newer `parse.rs`/`main.rs`; spec §6 fixes the fractional-second
width at 9 (nanosecond resolution), and `state.rs` bounds the display
precision by it with maximum 9. -/
def MAX_NANOS_CHARS : Nat := 9

/-- `ReadDur` (`src/parse.rs` lines 257-261): magnitude (total
nanoseconds) plus sign flag. -/
structure ReadDur where
  dur : Nat
  is_neg : Bool
deriving DecidableEq, Repr

/-! ## Error taxonomy -/

/-- `Unit` (`src/parse.rs` lines 18-23; imported by `parse/unit.rs`).
Named `Unit'` because `Unit` is taken by the Lean prelude. -/
inductive Unit' where
  | Second
  | Minute
  | Hour
deriving DecidableEq, Repr

/-- `Unit::from_grapheme` (`src/parse.rs` lines 27-34); the `Err(unk)`
case is modelled as `none` (the caller already holds the cluster). -/
def Unit'.from_grapheme (g : Cluster) : Option Unit' :=
  if g = ['s'] then some .Second
  else if g = ['m'] then some .Minute
  else if g = ['h'] then some .Hour
  else none

/-- `Group` (`src/parse/sw.rs` lines 346-352). -/
inductive Group where
  | Hours
  | Minutes
  | SecondsInt
  | SecondsSub
deriving DecidableEq, Repr

/-- `Group::max` (`src/parse/sw.rs` lines 355-363). -/
def Group.max : Group → Nat
  | .Hours => u64Max / 3600 + 1
  | .Minutes => 60
  | .SecondsInt => 60
  | .SecondsSub => NANOS_PER_SEC

/-- `SwErrKind` (`src/parse/sw.rs` lines 16-23). -/
inductive SwErrKind where
  | UnexpectedColon
  | UnexpectedDot (group : Group)
  | UnexpectedSign (is_neg : Bool)
  | Int (group : Group) (err : IntErrKind)
  | DurationOverflow (group : Group)
deriving DecidableEq, Repr

/-- `UnitErrKind` (`src/parse/unit.rs` lines 13-21). -/
inductive UnitErrKind where
  | UnitMissing
  | UnitUnknown (g : Cluster)
  | DurMissing (u : Unit')
  | ParseInt (err : IntErrKind) (u : Unit')
  | FractionalTooLong (u : Unit')
  | DurOverflow (u : Unit')
deriving DecidableEq, Repr

/-- Modelled from the spec: the outer `ErrKind` of the missing newer
`parse.rs` — spec §9 describes per-grammar error enums composed into an
outer enum, and §7 lists the extra `Negative` kind, which `parse/sw.rs`
line 167 constructs as `ErrKind::Negative`. -/
inductive ErrKind where
  | Sw (k : SwErrKind)
  | Unit (k : UnitErrKind)
  | Negative
deriving DecidableEq, Repr

/-- Modelled from the spec: the normalization performed by
`ParseErr::new` (spec §3): a raw integer-parse overflow coming from the
numeric-conversion step is rewritten into the domain-specific
"duration too large" kind of its grammar, so the integer width used by
the implementation never leaks into a message. -/
def ErrKind.normalize : ErrKind → ErrKind
  | .Sw (.Int g .PosOverflow) => .Sw (.DurationOverflow g)
  | .Unit (.ParseInt .PosOverflow u) => .Unit (.DurOverflow u)
  | k => k

/-- `ParseErr`: span plus kind (the Rust struct also duplicates the
source string, which the span already carries here). -/
structure ParseErr where
  span : ByteSpan
  kind : ErrKind
deriving DecidableEq, Repr

/-- Modelled from the spec: `ParseErr::new` of the missing newer
`parse.rs`; it records the span and applies the overflow normalization of
spec §3. -/
def ParseErr.new (span : ByteSpan) (kind : ErrKind) : ParseErr :=
  ⟨span, kind.normalize⟩

/-! ## The shared fraction parser (`parse_frac`) -/

/-- `ParseFracErr` as matched by `parse/sw.rs` lines 208-218 and
`parse/unit.rs` lines 147-162.  `idx` values are byte offsets into the
parsed slice, `len` the byte length of the offending cluster (pinned by
`tests::parse::frac::basic`). -/
inductive ParseFracErr where
  | ExcessDigits (idx : Nat)
  | ParseDigit (idx : Nat) (len : Nat) (err : IntErrKind)
  | NumeratorOverflow (idx : Nat)
deriving DecidableEq, Repr

/-- Accumulation loop of `parse_frac`: `idx` is the byte offset of the
current cluster, `pos` the digit position (0-based), `acc` the numerator
so far.  Digits at positions at or beyond `places` are truncated (the
walk stops), matching `parse_frac("23", 1) == Ok(2)` in
`tests::parse::frac::basic` and the spec §4.3/§4.5 truncation policy.
Each consumed cluster is parsed with `str::parse::<u8>`; accumulation is
checked against `u32::MAX`, reporting `NumeratorOverflow` at the current
cluster's byte offset (pinned by the `u32::MAX + 1` test). -/
def parse_frac_go (places : Nat) : List Cluster → Nat → Nat → Nat → Except ParseFracErr Nat
  | [], _, _, acc => .ok acc
  | g :: rest, idx, pos, acc =>
      if places ≤ pos then .ok acc
      else
        match parseU8 g with
        | .error e => .error (.ParseDigit idx (clusterBytes g) e)
        | .ok d =>
            let place := 10 ^ (places - 1 - pos)
            if u32Max < acc + d * place then .error (.NumeratorOverflow idx)
            else parse_frac_go places rest (idx + clusterBytes g) (pos + 1) (acc + d * place)

/-- Modelled from the spec: `parse_frac` of the missing newer `parse.rs`
(spec §4.5), behaviour pinned by the in-repo unit tests
`tests::parse::frac::basic`: fixed width `places`, truncation of digits
beyond that width, `ParseDigit` for non-digit clusters, checked `u32`
numerator accumulation.  `ExcessDigits` is part of the error type (the
`parse/unit.rs` match names it) but is never produced under the
truncation policy the tests pin down. -/
def parse_frac (cs : List Cluster) (places : Nat) : Except ParseFracErr Nat :=
  parse_frac_go places cs 0 0 0

/-! ## The reverse grapheme lexer (`SwLexer`, `src/parse/sw.rs`
lines 233-306)

The Rust lexer is a pure iterator over the reversed `grapheme_indices`
sequence; the embedding materialises the full token stream as a list (in
the order the reverse scan yields them), which is observationally the
same because the iterator is deterministic and `parse_as_sw` only ever
calls `next`/`peek` on it. -/

/-- `SwTokenKind` (`src/parse/sw.rs` lines 308-315). -/
inductive SwTokenKind where
  | Colon
  | Dot
  | Pos
  | Neg
  | Data
deriving DecidableEq, Repr

/-- `SwToken` (`src/parse/sw.rs` lines 317-321). -/
structure SwToken where
  typ : SwTokenKind
  span : ByteSpan
deriving DecidableEq, Repr

/-- `SwLexer::single_token` (`src/parse/sw.rs` lines 265-273). -/
def singleToken (g : Cluster) : Option SwTokenKind :=
  if g = [':'] then some .Colon
  else if g = ['.'] then some .Dot
  else if g = ['+'] then some .Pos
  else if g = ['-'] then some .Neg
  else none

/-- Whether every scalar of the cluster is whitespace
(`next.1.chars().all(char::is_whitespace)`). -/
def allWS (g : Cluster) : Bool := g.all isWS

/-- The data-token extension loop of `SwLexer::next` (`src/parse/sw.rs`
lines 285-299): keep consuming (in reverse) while the next cluster is not
a single-cluster token, counting whitespace bytes as `ignored` and only
folding them into the span when a further non-whitespace cluster is
reached (so the forward-leading whitespace of a data run is excluded).
Returns the final span and the unconsumed rest. -/
def dataExtend (span : ByteSpan) (ignored : Nat) :
    List (Nat × Cluster) → ByteSpan × List (Nat × Cluster)
  | [] => (span, [])
  | (off, g) :: rest =>
      if (singleToken g).isSome then (span, (off, g) :: rest)
      else if allWS g then dataExtend span (ignored + clusterBytes g) rest
      else dataExtend (span.shift_start_left (clusterBytes g + ignored)) 0 rest

/-- The token stream of `SwLexer` over a reversed `grapheme_indices`
list: `advance` skips whitespace-only clusters, single-cluster tokens are
emitted directly, anything else starts a data token extended by
`dataExtend`.  Every iteration consumes at least one cluster, so the
`fuel` argument (always supplied as one more than the list length) never
runs out; it only makes the recursion structural. -/
def swTokensGo (src : List Char) : Nat → List (Nat × Cluster) → List SwToken
  | 0, _ => []
  | fuel + 1, l =>
      match l.dropWhile (fun p => allWS p.2) with
      | [] => []
      | (off, g) :: rest =>
          match singleToken g with
          | some k => ⟨k, ByteSpan.new off (clusterBytes g) src⟩ :: swTokensGo src fuel rest
          | none =>
              ⟨.Data, (dataExtend (ByteSpan.new off (clusterBytes g) src) 0 rest).1⟩ ::
                swTokensGo src fuel (dataExtend (ByteSpan.new off (clusterBytes g) src) 0 rest).2

/-- All tokens of `SwLexer::new(s)` for input segmentation `gs` (the
reverse scan). -/
def swTokens (gs : Seg) : List SwToken :=
  swTokensGo (flat gs) (gs.length + 1) (gidx gs).reverse

/-! ## The colon grammar (`ReadDur::parse_as_sw`, `src/parse/sw.rs`
lines 87-230) -/

/-- `Groups` (`src/parse/sw.rs` lines 323-343): one span per group. -/
structure Groups where
  hours : ByteSpan
  minutes : ByteSpan
  secondsInt : ByteSpan
  secondsSub : ByteSpan
deriving DecidableEq, Repr

/-- `Groups::new`: every group is the zero span of the source. -/
def Groups.init (src : List Char) : Groups :=
  ⟨⟨0, 0, src⟩, ⟨0, 0, src⟩, ⟨0, 0, src⟩, ⟨0, 0, src⟩⟩

/-- `Index<Group> for Groups`. -/
def Groups.get (gr : Groups) : Group → ByteSpan
  | .Hours => gr.hours
  | .Minutes => gr.minutes
  | .SecondsInt => gr.secondsInt
  | .SecondsSub => gr.secondsSub

/-- `IndexMut<Group> for Groups`. -/
def Groups.set (gr : Groups) : Group → ByteSpan → Groups
  | .Hours, sp => { gr with hours := sp }
  | .Minutes, sp => { gr with minutes := sp }
  | .SecondsInt, sp => { gr with secondsInt := sp }
  | .SecondsSub, sp => { gr with secondsSub := sp }

/-- Is the peeked token kind `None`, `Pos` or `Neg`? (`src/parse/sw.rs`
lines 117-121). -/
def peekEndsNumber : Option SwTokenKind → Bool
  | none => true
  | some .Pos => true
  | some .Neg => true
  | some _ => false

/-- The lexing loop of `parse_as_sw` (`src/parse/sw.rs` lines 96-162).
The Rust `match (cur, token.typ)` has ordered arms with wildcards; here
every one of the 4×5 combinations is written out explicitly, in the
semantics the ordered Rust arms give it.  `peek` on the lexer is the head
of the remaining token list.  Errors short-circuit the loop exactly as
the Rust `return Err(...)` does; on success the loop yields the groups,
`is_neg.unwrap_or(false)` and the recorded `neg_span`. -/
def lexLoop (src : List Char) :
    List SwToken → Group → Groups → Option Bool → Option ByteSpan →
    Except ParseErr (Groups × Bool × Option ByteSpan)
  | [], _, groups, is_neg, neg_span => .ok (groups, is_neg.getD false, neg_span)
  | t :: rest, cur, groups, is_neg, neg_span =>
      match cur, t.typ with
      | .SecondsSub, .Colon =>
          -- the data seen so far was really `SecondsInt`; move it there
          let tmp := groups.get .SecondsSub
          let groups := (groups.set .SecondsSub (ByteSpan.new 0 0 src)).set .SecondsInt tmp
          lexLoop src rest .Minutes groups is_neg neg_span
      | .SecondsSub, .Dot => lexLoop src rest .SecondsInt groups is_neg neg_span
      | .SecondsSub, .Data =>
          let cur2 := if peekEndsNumber (rest.head?.map SwToken.typ) then Group.SecondsInt
            else Group.SecondsSub
          lexLoop src rest cur2 (groups.set cur2 t.span) is_neg neg_span
      | .SecondsSub, .Pos =>
          if rest.isEmpty then lexLoop src rest .SecondsSub groups (some false) neg_span
          else .error (ParseErr.new t.span (.Sw (.UnexpectedSign false)))
      | .SecondsSub, .Neg =>
          if rest.isEmpty then lexLoop src rest .SecondsSub groups (some true) (some t.span)
          else .error (ParseErr.new t.span (.Sw (.UnexpectedSign true)))
      | .SecondsInt, .Colon => lexLoop src rest .Minutes groups is_neg neg_span
      | .SecondsInt, .Dot => .error (ParseErr.new t.span (.Sw (.UnexpectedDot .SecondsInt)))
      | .SecondsInt, .Data =>
          lexLoop src rest .SecondsInt (groups.set .SecondsInt t.span) is_neg neg_span
      | .SecondsInt, .Pos =>
          if rest.isEmpty then lexLoop src rest .SecondsInt groups (some false) neg_span
          else .error (ParseErr.new t.span (.Sw (.UnexpectedSign false)))
      | .SecondsInt, .Neg =>
          if rest.isEmpty then lexLoop src rest .SecondsInt groups (some true) (some t.span)
          else .error (ParseErr.new t.span (.Sw (.UnexpectedSign true)))
      | .Minutes, .Colon => lexLoop src rest .Hours groups is_neg neg_span
      | .Minutes, .Dot => .error (ParseErr.new t.span (.Sw (.UnexpectedDot .Minutes)))
      | .Minutes, .Data =>
          lexLoop src rest .Minutes (groups.set .Minutes t.span) is_neg neg_span
      | .Minutes, .Pos =>
          if rest.isEmpty then lexLoop src rest .Minutes groups (some false) neg_span
          else .error (ParseErr.new t.span (.Sw (.UnexpectedSign false)))
      | .Minutes, .Neg =>
          if rest.isEmpty then lexLoop src rest .Minutes groups (some true) (some t.span)
          else .error (ParseErr.new t.span (.Sw (.UnexpectedSign true)))
      | .Hours, .Colon => .error (ParseErr.new t.span (.Sw .UnexpectedColon))
      | .Hours, .Dot => .error (ParseErr.new t.span (.Sw (.UnexpectedDot .Hours)))
      | .Hours, .Data =>
          lexLoop src rest .Hours (groups.set .Hours t.span) is_neg neg_span
      | .Hours, .Pos =>
          if rest.isEmpty then lexLoop src rest .Hours groups (some false) neg_span
          else .error (ParseErr.new t.span (.Sw (.UnexpectedSign false)))
      | .Hours, .Neg =>
          if rest.isEmpty then lexLoop src rest .Hours groups (some true) (some t.span)
          else .error (ParseErr.new t.span (.Sw (.UnexpectedSign true)))

/-- The whole lexing phase of `parse_as_sw` for an input segmentation. -/
def lexPhase (gs : Seg) : Except ParseErr (Groups × Bool × Option ByteSpan) :=
  lexLoop (flat gs) (swTokens gs) .SecondsSub (Groups.init (flat gs)) none none

/-- One iteration of the whole-groups loop (`src/parse/sw.rs`
lines 179-196): slice the group's span (`none` would be a slice panic),
trim it, skip it when empty, otherwise parse as `u64` and accumulate
`units * sec_per_unit` seconds with checked multiplication and checked
duration addition, mapping both overflows to `DurationOverflow(group)`. -/
def swGroupStep (groups : Groups) (g : Group) (secPerUnit : Nat) (dur : Nat) :
    Option (Except ParseErr Nat) :=
  let span := groups.get g
  match span.get with
  | none => none
  | some cs =>
      let to_parse := trimChars cs
      if to_parse.isEmpty then some (.ok dur)
      else
        match parseU64 to_parse with
        | .error err => some (.error (ParseErr.new span (.Sw (.Int g err))))
        | .ok units =>
            if u64Max < units * secPerUnit then
              some (.error (ParseErr.new span (.Sw (.DurationOverflow g))))
            else
              let secs := units * secPerUnit
              if DUR_MAX < dur + secs * NANOS_PER_SEC then
                some (.error (ParseErr.new span (.Sw (.DurationOverflow g))))
              else some (.ok (dur + secs * NANOS_PER_SEC))

/-- The `for` loop over `[(Hours, 3600), (Minutes, 60), (SecondsInt, 1)]`
(`src/parse/sw.rs` lines 174-197), unrolled. -/
def swWhole (groups : Groups) : Option (Except ParseErr Nat) :=
  match swGroupStep groups .Hours 3600 0 with
  | none => none
  | some (.error e) => some (.error e)
  | some (.ok d1) =>
      match swGroupStep groups .Minutes 60 d1 with
      | none => none
      | some (.error e) => some (.error e)
      | some (.ok d2) => swGroupStep groups .SecondsInt 1 d2

/-- The grapheme clusters of the input whose byte ranges lie inside
`[a, b)`.  For a cluster-aligned span this is exactly the segmentation of
the sliced substring; it models the source re-running
`UnicodeSegmentation` over `span.get()`. -/
def clustersIn (gs : Seg) (a b : Nat) : List Cluster :=
  (gidx gs).filterMap (fun p =>
    if a ≤ p.1 ∧ p.1 + clusterBytes p.2 ≤ b then some p.2 else none)

/-- The subseconds step of `parse_as_sw` (`src/parse/sw.rs`
lines 200-227): slice the `SecondsSub` span, skip when blank, otherwise
run `parse_frac` at nanosecond width.  A `ParseDigit` error narrows the
span to the offending cluster; the `NumeratorOverflow` arm is an
`unreachable!()` in the source (a reached `unreachable!` panics, hence
`none`), and so is the `nanos >= group.max()` check; `ExcessDigits` has
no arm in the source match (`parse_frac` never returns it).  The nanos
are added with checked duration addition. -/
def swSubsec (gs : Seg) (groups : Groups) (dur : Nat) (is_neg : Bool) :
    Option (Except ParseErr ReadDur) :=
  let span := groups.get .SecondsSub
  match span.get with
  | none => none
  | some cs =>
      if (trimChars cs).isEmpty then some (.ok ⟨dur, is_neg⟩)
      else
        match parse_frac (clustersIn gs span.start (span.start + span.len)) MAX_NANOS_CHARS with
        | .error (.ParseDigit idx len err) =>
            let sp := { span.shift_start_right idx with len := len }
            some (.error (ParseErr.new sp (.Sw (.Int .SecondsSub err))))
        | .error (.NumeratorOverflow _) => none
        | .error (.ExcessDigits _) => none
        | .ok nanos =>
            if Group.max .SecondsSub ≤ nanos then none
            else if DUR_MAX < dur + nanos then
              some (.error (ParseErr.new span (.Sw (.DurationOverflow .SecondsSub))))
            else some (.ok ⟨dur + nanos, is_neg⟩)

/-- `ReadDur::parse_as_sw` (`src/parse/sw.rs` lines 87-230): the lexing
loop, then the disallowed-negative check (`neg_span.unwrap()` is the
`none` case of the inner match), then the whole-groups loop and the
subseconds step. -/
def parse_as_sw (gs : Seg) (allow_neg : Bool) : Option (Except ParseErr ReadDur) :=
  match lexPhase gs with
  | .error e => some (.error e)
  | .ok (groups, is_neg, neg_span) =>
      if !allow_neg && is_neg then
        match neg_span with
        | some sp => some (.error (ParseErr.new sp .Negative))
        | none => none
      else
        match swWhole groups with
        | none => none
        | some (.error e) => some (.error e)
        | some (.ok dur) => swSubsec gs groups dur is_neg

/-! ## The unit-suffix grammar (`ReadDur::parse_as_unit`,
`src/parse/unit.rs` lines 67-177) -/

/-- `s.trim_end()` followed by re-running `grapheme_indices` on the
trimmed string, modelled at cluster granularity: drop the maximal run of
trailing all-whitespace clusters.  (A real segmentation only ends in a
whitespace scalar when the final cluster is entirely whitespace, so this
coincides with the byte-level `trim_end` on such segmentations.) -/
def trimEndSeg (gs : Seg) : Seg :=
  (gs.reverse.dropWhile allWS).reverse

/-- The seconds multiplier of a unit (`src/parse/unit.rs`
lines 168-172). -/
def Unit'.mult : Unit' → Nat
  | .Second => 1
  | .Minute => 60
  | .Hour => 3600

/-- The fractional-part step of `parse_as_unit` (`src/parse/unit.rs`
lines 140-163): trim the candidate span, slice it (`sub_span.get()` —
`none` is the slice panic that the mis-sized span of line 122 can cause),
and run `parse_frac` at width 9, mapping its errors onto spans and
`UnitErrKind`s. -/
def unitSubs (gs : Seg) (u : Unit') : Option ByteSpan → Option (Except ParseErr Nat)
  | none => some (.ok 0)
  | some ss0 =>
      let ss := ss0.trim_whitespace
      match ss.get with
      | none => none
      | some _ =>
          match parse_frac (clustersIn gs ss.start (ss.start + ss.len)) 9 with
          | .error (.ExcessDigits idx) =>
              some (.error (ParseErr.new (ss.shift_start_right idx) (.Unit (.FractionalTooLong u))))
          | .error (.ParseDigit idx len err) =>
              let sp := { ss.shift_start_right idx with len := len }
              some (.error (ParseErr.new sp (.Unit (.ParseInt err u))))
          | .error (.NumeratorOverflow _) =>
              some (.error (ParseErr.new ss (.Unit (.DurOverflow u))))
          | .ok subs => some (.ok subs)

/-- `ReadDur::parse_as_unit` (`src/parse/unit.rs` lines 67-177).

Shape: trim the end, take the last grapheme cluster as the unit
(`UnitMissing` / `UnitUnknown` otherwise), trim the numeric prefix
(`DurMissing` when blank), consume a leading sign cluster, split at the
first `.` cluster — note the source computes the fractional span's
length as `dur_span.len - tmp_sub_start` (line 122), which is only
correct when `dur_span.start = 0` — then parse the integer part as `u64`
and the fractional part via `parse_frac`, and finally scale
`Duration::new(ints, subs)` by the unit with a checked multiply
(`DurOverflow`).  `Duration::new` itself panics (`none`) if the nanos
carry overflows the seconds. -/
def parse_as_unit (gs0 : Seg) : Option (Except ParseErr ReadDur) :=
  let gs := trimEndSeg gs0
  let src := flat gs
  match (gidx gs).getLast? with
  | none => some (.error (ParseErr.new (ByteSpan.new_all src) (.Unit .UnitMissing)))
  | some (try_unit_idx, try_unit) =>
      match Unit'.from_grapheme try_unit with
      | none =>
          some (.error (ParseErr.new ⟨try_unit_idx, clusterBytes try_unit, src⟩
            (.Unit (.UnitUnknown try_unit))))
      | some u =>
          let dur_len := try_unit_idx
          let dur_span := (ByteSpan.new 0 dur_len src).trim_whitespace
          match dur_span.get with
          | none => none
          | some dcs =>
              if dcs.isEmpty then
                some (.error (ParseErr.new dur_span (.Unit (.DurMissing u))))
              else
                let sign := gs.head?
                let is_neg := sign = some ['-']
                let num_span :=
                  if sign = some ['+'] ∨ sign = some ['-'] then dur_span.shift_start_right 1
                  else dur_span
                let dotFound := (gidx gs).find? (fun p => p.2 = ['.'])
                let int_span :=
                  match dotFound with
                  | none => num_span
                  | some (dot_idx, _) => { num_span with len := usizeSub dot_idx num_span.start }
                let sub_span :=
                  match dotFound with
                  | none => none
                  | some (dot_idx, dotg) =>
                      let tmp_sub_start := dot_idx + clusterBytes dotg
                      some (ByteSpan.new tmp_sub_start (usizeSub dur_span.len tmp_sub_start) src)
                let int_span := int_span.trim_whitespace
                match int_span.get with
                | none => none
                | some ics =>
                    match
                      (if ics.isEmpty then Except.ok 0
                       else
                         match parseU64 ics with
                         | .error err =>
                             Except.error (ParseErr.new int_span (.Unit (.ParseInt err u)))
                         | .ok v => Except.ok v) with
                    | .error pe => some (.error pe)
                    | .ok ints =>
                        match unitSubs gs u sub_span with
                        | none => none
                        | some (.error pe) => some (.error pe)
                        | some (.ok subs) =>
                            let durN := ints * NANOS_PER_SEC + subs
                            if DUR_MAX < durN then none
                            else if DUR_MAX < durN * u.mult then
                              some (.error (ParseErr.new num_span (.Unit (.DurOverflow u))))
                            else some (.ok ⟨durN * u.mult, is_neg⟩)

/-! ## The dispatcher (`ReadDur::parse`) -/

/-- Modelled from the spec: the top-level dispatcher
`ReadDur::parse(input, allow_negative) -> Option<Result<ReadDur, ParseErr>>`
lives in the newer `parse.rs` missing from `src/` (its callers are
`state.rs` lines 151 and 173).  Spec §4.6 plus the pinned examples of
spec §8 determine it:

* empty input returns `None` (§4.6, §8 "Empty input");
* an input containing a `:` byte is decided entirely by the colon
  grammar (§4.6, §8 "Grammar disambiguation");
* a colon-free input is offered to the unit grammar first; its success is
  authoritative (after the disallowed-negative check), and on its failure
  the colon grammar's result — success or error — is returned.  This
  fallback acceptance is forced by §8: `parse("-3", true)` must be
  `Ok({3s, neg})` and `parse(" -5s", false)` must be `Err(Negative)`,
  while `parse_as_unit` rejects both inputs (`UnitUnknown('3')` /
  `ParseInt`), and `parse("3-", true)` must be `Err(UnexpectedSign)`,
  the colon grammar's error.
* For a unit-grammar success with `is_neg` when negatives are
  disallowed, the error is `Negative` (§4.4/§7); the span the missing
  code attaches to it is not pinned by the spec, and is modelled as the
  whole input.

The outer `Option` is the panic marker of the embedding, the inner
`Option` is the Rust `Option` of the return type. -/
def parse (gs : Seg) (allow_negative : Bool) :
    Option (Option (Except ParseErr ReadDur)) :=
  if (flat gs).isEmpty then some none
  else if hasColon gs then
    match parse_as_sw gs allow_negative with
    | none => none
    | some r => some (some r)
  else
    match parse_as_unit gs with
    | none => none
    | some (.ok r) =>
        if r.is_neg && !allow_negative then
          some (some (.error (ParseErr.new (ByteSpan.new_all (flat gs)) .Negative)))
        else some (some (.ok r))
    | some (.error _) =>
        match parse_as_sw gs allow_negative with
        | none => none
        | some r => some (some r)

/-! ## Sanity anchors: the embedding reproduces the repository's own
tests (`src/tests.rs`) -/

/-- `tests::parse::frac::basic`: truncation, digit errors (byte index and
length of the offending cluster) and the `u32::MAX + 1` numerator
overflow. -/
theorem sanity_frac_tests :
    parse_frac [['1']] 1 = .ok 1 ∧
    parse_frac [['2'], ['3']] 1 = .ok 2 ∧
    parse_frac [['2'], ['3']] 2 = .ok 23 ∧
    parse_frac [['2']] 2 = .ok 20 ∧
    parse_frac [['2'], ['4'], ['🪴'], ['2'], ['1']] 5 = .error (.ParseDigit 2 4 .InvalidDigit) ∧
    parse_frac (segOf "4294967296") 10 = .error (.NumeratorOverflow 9) :=
  ⟨rfl, rfl, rfl, rfl, rfl, rfl⟩

/-- `tests::parse::sw::whitespace_trimmed`: the token spans of the lexer
on `" 1:2    45  6 : 4 "` (the reverse scan yields them right to left;
the repository test pops them to compare left to right). -/
theorem sanity_lexer_spans :
    (swTokens (segOf " 1:2    45  6 : 4 ")).map (fun t => (t.typ, t.span.start, t.span.len)) =
      [(.Data, 16, 1), (.Colon, 14, 1), (.Data, 3, 10), (.Colon, 2, 1), (.Data, 1, 1)] := rfl

/-- `tests::parse::sw::basic` and `zero_dur_corner_cases`, a sample. -/
theorem sanity_sw_tests :
    parse_as_sw (segOf "0:0:3") true = some (.ok ⟨3 * NANOS_PER_SEC, false⟩) ∧
    parse_as_sw (segOf "-:3:") true = some (.ok ⟨180 * NANOS_PER_SEC, true⟩) ∧
    parse_as_sw (segOf "") true = some (.ok ⟨0, false⟩) ∧
    parse_as_sw (segOf "-::.") true = some (.ok ⟨0, true⟩) :=
  ⟨rfl, rfl, rfl, rfl⟩

/-- `tests::parse::unit::whitespace` and `overflow_bug`. -/
theorem sanity_unit_tests :
    parse_as_unit (segOf " 1s") = some (.ok ⟨NANOS_PER_SEC, false⟩) ∧
    parse_as_unit (segOf "1s ") = some (.ok ⟨NANOS_PER_SEC, false⟩) ∧
    parse_as_unit (segOf "1 s") = some (.ok ⟨NANOS_PER_SEC, false⟩) ∧
    parse_as_unit (segOf "1. s") = some (.ok ⟨NANOS_PER_SEC, false⟩) ∧
    parse_as_unit (segOf "1 . s") = some (.ok ⟨NANOS_PER_SEC, false⟩) ∧
    parse_as_unit (segOf "1 .s") = some (.ok ⟨NANOS_PER_SEC, false⟩) ∧
    parse_as_unit (segOf "0.2s") = some (.ok ⟨200000000, false⟩) :=
  ⟨rfl, rfl, rfl, rfl, rfl, rfl, rfl⟩

/-! ## Helper lemmas -/

/-- The kind normalization of `ParseErr::new` never lets an
integer-overflow `Int` kind through. -/
theorem new_clean (sp : ByteSpan) (k : ErrKind) (g : Group) :
    (ParseErr.new sp k).kind ≠ .Sw (.Int g .PosOverflow) := by
  show k.normalize ≠ _
  cases k with
  | Negative => simp [ErrKind.normalize]
  | Sw sk =>
      cases sk with
      | Int g2 e2 => cases e2 <;> simp [ErrKind.normalize]
      | UnexpectedColon => simp [ErrKind.normalize]
      | UnexpectedDot a => simp [ErrKind.normalize]
      | UnexpectedSign a => simp [ErrKind.normalize]
      | DurationOverflow a => simp [ErrKind.normalize]
  | Unit uk =>
      cases uk with
      | ParseInt e2 u => cases e2 <;> simp [ErrKind.normalize]
      | UnitMissing => simp [ErrKind.normalize]
      | UnitUnknown a => simp [ErrKind.normalize]
      | DurMissing a => simp [ErrKind.normalize]
      | FractionalTooLong a => simp [ErrKind.normalize]
      | DurOverflow a => simp [ErrKind.normalize]

set_option maxHeartbeats 2000000 in
/-- Every error the lexing loop returns went through `ParseErr::new`, so
its kind is never an integer-overflow `Int`. -/
theorem lexLoop_error_clean (src : List Char) (ts : List SwToken) :
    ∀ (cur : Group) (gr : Groups) (n : Option Bool) (nsp : Option ByteSpan) (e : ParseErr),
      lexLoop src ts cur gr n nsp = .error e → ∀ g, e.kind ≠ .Sw (.Int g .PosOverflow) := by
  induction ts with
  | nil => intro cur gr n nsp e h; simp [lexLoop] at h
  | cons t rest ih =>
      intro cur gr n nsp e h g
      obtain ⟨typ, span⟩ := t
      cases cur <;> cases typ <;> simp only [lexLoop] at h <;>
        first
          | (split at h
             · exact ih _ _ _ _ _ h g
             · injection h with he; subst he; exact new_clean _ _ g)
          | (injection h with he; subst he; exact new_clean _ _ g)
          | (exact ih _ _ _ _ _ h g)

set_option maxHeartbeats 2000000 in
/-- If the lexing loop succeeds with `is_neg = true` then a negative-sign
span was recorded (provided that held of the incoming state). -/
theorem lexLoop_ok_negspan (src : List Char) (ts : List SwToken) :
    ∀ (cur : Group) (gr : Groups) (n : Option Bool) (nsp : Option ByteSpan)
      (gr2 : Groups) (nsp2 : Option ByteSpan),
      lexLoop src ts cur gr n nsp = .ok (gr2, true, nsp2) →
      (n = some true → nsp.isSome = true) → nsp2.isSome = true := by
  induction ts with
  | nil =>
      intro cur gr n nsp gr2 nsp2 h hinv
      simp only [lexLoop, Except.ok.injEq, Prod.mk.injEq] at h
      obtain ⟨-, hb, hsp⟩ := h
      subst hsp
      cases n with
      | none => simp at hb
      | some b => cases b <;> simp_all
  | cons t rest ih =>
      intro cur gr n nsp gr2 nsp2 h hinv
      obtain ⟨typ, span⟩ := t
      cases cur <;> cases typ <;> simp only [lexLoop] at h <;>
        first
          | (split at h
             · exact ih _ _ _ _ _ _ h (by simp)
             · exact absurd h (by simp))
          | (exact absurd h (by simp))
          | (exact ih _ _ _ _ _ _ h hinv)

set_option maxHeartbeats 2000000 in
/-- If the lexing loop succeeds, every sign token in its input was the
final token of the (reverse) stream — that is, the forward-first
character of the input. -/
theorem lexLoop_ok_sign_last (src : List Char) (ts : List SwToken) :
    ∀ (cur : Group) (gr : Groups) (n : Option Bool) (nsp : Option ByteSpan) res,
      lexLoop src ts cur gr n nsp = .ok res →
      ∀ i (hi : i < ts.length),
        ((ts.get ⟨i, hi⟩).typ = .Pos ∨ (ts.get ⟨i, hi⟩).typ = .Neg) →
        i + 1 = ts.length := by
  induction ts with
  | nil => intro cur gr n nsp res h i hi; simp at hi
  | cons t rest ih =>
      intro cur gr n nsp res h i hi hsign
      obtain ⟨typ, span⟩ := t
      cases i with
      | zero =>
          simp only [List.get] at hsign
          rcases hsign with hs | hs <;> subst hs <;>
            cases cur <;> simp only [lexLoop] at h <;>
            (split at h
             · rename_i hrest
               simp only [List.isEmpty_iff] at hrest
               subst hrest
               simp
             · exact absurd h (by simp))
      | succ j =>
          have hj : j < rest.length := by simpa using hi
          have hlen : j + 1 = rest.length := by
            cases cur <;> cases typ <;> simp only [lexLoop] at h <;>
              first
                | (split at h
                   · rename_i hrest
                     simp only [List.isEmpty_iff] at hrest
                     subst hrest
                     simp at hj
                   · exact absurd h (by simp))
                | (exact absurd h (by simp))
                | (exact ih _ _ _ _ _ h j hj (by simpa using hsign))
          simpa using hlen

/-- Every error of a whole-group step went through `ParseErr::new`. -/
theorem swGroupStep_clean (groups : Groups) (g0 : Group) (spu dur : Nat) (e : ParseErr)
    (h : swGroupStep groups g0 spu dur = some (.error e)) :
    ∀ g, e.kind ≠ .Sw (.Int g .PosOverflow) := by
  intro g
  unfold swGroupStep at h
  dsimp only at h
  split at h
  · exact absurd h (by simp)
  · split at h
    · exact absurd h (by simp)
    · split at h
      · injection h with he
        injection he with he2
        subst he2
        exact new_clean _ _ g
      · split at h
        · injection h with he
          injection he with he2
          subst he2
          exact new_clean _ _ g
        · split at h
          · injection h with he
            injection he with he2
            subst he2
            exact new_clean _ _ g
          · exact absurd h (by simp)

/-- Every error of the whole-groups loop went through `ParseErr::new`. -/
theorem swWhole_clean (groups : Groups) (e : ParseErr)
    (h : swWhole groups = some (.error e)) :
    ∀ g, e.kind ≠ .Sw (.Int g .PosOverflow) := by
  unfold swWhole at h
  split at h
  · exact absurd h (by simp)
  · rename_i heq
    injection h with he
    injection he with he2
    subst he2
    exact swGroupStep_clean _ _ _ _ _ heq
  · split at h
    · exact absurd h (by simp)
    · rename_i heq
      injection h with he
      injection he with he2
      subst he2
      exact swGroupStep_clean _ _ _ _ _ heq
    · exact swGroupStep_clean _ _ _ _ _ h

/-- Every error of the subseconds step went through `ParseErr::new`. -/
theorem swSubsec_clean (gs : Seg) (groups : Groups) (dur : Nat) (b : Bool) (e : ParseErr)
    (h : swSubsec gs groups dur b = some (.error e)) :
    ∀ g, e.kind ≠ .Sw (.Int g .PosOverflow) := by
  intro g
  unfold swSubsec at h
  dsimp only at h
  split at h
  · exact absurd h (by simp)
  · split at h
    · exact absurd h (by simp)
    · split at h
      · injection h with he
        injection he with he2
        subst he2
        exact new_clean _ _ g
      · exact absurd h (by simp)
      · exact absurd h (by simp)
      · split at h
        · exact absurd h (by simp)
        · split at h
          · injection h with he
            injection he with he2
            subst he2
            exact new_clean _ _ g
          · exact absurd h (by simp)

/-- A successful subseconds step keeps the sign decided by the lexing
phase. -/
theorem swSubsec_ok_isNeg (gs : Seg) (groups : Groups) (dur : Nat) (b : Bool) (r : ReadDur)
    (h : swSubsec gs groups dur b = some (.ok r)) : r.is_neg = b := by
  unfold swSubsec at h
  dsimp only at h
  split at h
  · exact absurd h (by simp)
  · split at h
    · injection h with he
      injection he with he2
      subst he2
      rfl
    · split at h
      · exact absurd h (by simp)
      · exact absurd h (by simp)
      · exact absurd h (by simp)
      · split at h
        · exact absurd h (by simp)
        · split at h
          · exact absurd h (by simp)
          · injection h with he
            injection he with he2
            subst he2
            rfl

/-- A successful `parse_as_sw` reflects a successful lexing phase whose
`is_neg` is the result's sign, and the disallowed-negative gate forces
that sign to be `false` when negatives are disallowed. -/
theorem parse_as_sw_ok_lex (gs : Seg) (b : Bool) (r : ReadDur)
    (h : parse_as_sw gs b = some (.ok r)) :
    (∃ gr nsp, lexPhase gs = .ok (gr, r.is_neg, nsp)) ∧ (b = false → r.is_neg = false) := by
  unfold parse_as_sw at h
  split at h
  · exact absurd h (by simp)
  · rename_i gr isn nsp heq
    split at h
    · rename_i hneg
      split at h
      · exact absurd h (by simp)
      · exact absurd h (by simp)
    · rename_i hneg
      have hne : r.is_neg = isn := by
        split at h
        · exact absurd h (by simp)
        · exact absurd h (by simp)
        · exact swSubsec_ok_isNeg _ _ _ _ _ h
      constructor
      · exact ⟨gr, nsp, by rw [heq, hne]⟩
      · intro hb
        subst hb
        simp only [Bool.not_false, Bool.true_and] at hneg
        rw [hne]
        simpa using hneg

/-- When the lexing phase records a negative sign and negatives are
disallowed, `parse_as_sw` reports `Negative` at the recorded span. -/
theorem parse_as_sw_neg_false (gs : Seg) (gr : Groups) (sp : ByteSpan)
    (h : lexPhase gs = .ok (gr, true, some sp)) :
    parse_as_sw gs false = some (.error ⟨sp, .Negative⟩) := by
  unfold parse_as_sw
  rw [h]
  rfl

/-- C2 general core: the colon grammar never returns an integer-overflow
`Int` error. -/
theorem parse_as_sw_clean (gs : Seg) (b : Bool) (e : ParseErr)
    (h : parse_as_sw gs b = some (.error e)) :
    ∀ g, e.kind ≠ .Sw (.Int g .PosOverflow) := by
  intro g
  unfold parse_as_sw at h
  split at h
  · rename_i heq
    injection h with he
    injection he with he2
    subst he2
    exact lexLoop_error_clean _ _ _ _ _ _ _ heq g
  · split at h
    · split at h
      · injection h with he
        injection he with he2
        subst he2
        exact new_clean _ _ g
      · exact absurd h (by simp)
    · split at h
      · exact absurd h (by simp)
      · injection h with he
        injection he with he2
        subst he2
        rename_i heq
        exact swWhole_clean _ _ heq g
      · exact swSubsec_clean _ _ _ _ _ h g

/-- `gidxFrom` distributes over appending a final cluster. -/
theorem gidxFrom_append_single (pre : Seg) (g : Cluster) :
    ∀ off, gidxFrom off (pre ++ [g]) = gidxFrom off pre ++ [(off + byteLen (flat pre), g)] := by
  induction pre with
  | nil => intro off; simp [gidxFrom, flat, byteLen]
  | cons hd tl ih =>
      intro off
      rw [List.cons_append]
      show (off, hd) :: gidxFrom (off + clusterBytes hd) (tl ++ [g]) = _
      rw [ih]
      have hflat : flat (hd :: tl) = hd ++ flat tl := rfl
      have hb : byteLen (hd ++ flat tl) = byteLen hd + byteLen (flat tl) := by
        simp [byteLen]
      simp [gidxFrom, hflat, hb, clusterBytes]
      omega

/-- `getLast?` of `gidxFrom` on a list ending in `g` yields `g` at the
byte offset of everything before it. -/
theorem gidxFrom_getLast (pre : Seg) (g : Cluster) (off : Nat) :
    (gidxFrom off (pre ++ [g])).getLast? = some (off + byteLen (flat pre), g) := by
  rw [gidxFrom_append_single]
  rw [List.getLast?_append_cons]
  rfl

/-- An `Option`-match the dispatcher uses is `Option.map Option.some`. -/
theorem optMatch_eq_map (x : Option (Except ParseErr ReadDur)) :
    (match x with
      | none => (none : Option (Option (Except ParseErr ReadDur)))
      | some r => some (some r)) = x.map Option.some := by
  cases x <;> rfl

/-- Unfolding of the dispatcher on a nonempty input containing `:`. -/
theorem parse_unfold_colon (gs : Seg) (b : Bool)
    (hemp : (flat gs).isEmpty = false) (hcol : hasColon gs = true) :
    parse gs b = (parse_as_sw gs b).map Option.some := by
  unfold parse
  rw [hemp, hcol]
  simp only [Bool.false_eq_true, if_false, if_true]
  exact optMatch_eq_map _

/-- Unfolding of the dispatcher on a nonempty colon-free input whose
unit-grammar attempt failed: the colon grammar's result is returned. -/
theorem parse_unfold_nocolon_err (gs : Seg) (b : Bool) (e : ParseErr)
    (hemp : (flat gs).isEmpty = false) (hcol : hasColon gs = false)
    (hunit : parse_as_unit gs = some (.error e)) :
    parse gs b = (parse_as_sw gs b).map Option.some := by
  unfold parse
  rw [hemp, hcol]
  simp only [Bool.false_eq_true, if_false]
  rw [hunit]
  exact optMatch_eq_map _

/-- Unfolding of the dispatcher on a nonempty colon-free input whose
unit-grammar attempt succeeded. -/
theorem parse_unfold_nocolon_ok (gs : Seg) (b : Bool) (r : ReadDur)
    (hemp : (flat gs).isEmpty = false) (hcol : hasColon gs = false)
    (hunit : parse_as_unit gs = some (.ok r)) :
    parse gs b =
      (if r.is_neg && !b then
        some (some (.error (ParseErr.new (ByteSpan.new_all (flat gs)) .Negative)))
      else some (some (.ok r))) := by
  unfold parse
  rw [hemp, hcol]
  simp only [Bool.false_eq_true, if_false]
  rw [hunit]

/-! ## Claim theorems -/

/-- C1 (counterexample): the claim says the dispatcher selects the
unit-suffix grammar for every colon-free input and the returned success
never comes from falling back to the other grammar.  On `"-3"` — a
colon-free input — `parse_as_unit` fails with `UnitUnknown('3')`, yet
`parse("-3", true)` succeeds with 3 seconds negative, a success that can
only come from the colon grammar. -/
theorem c1_dispatch_counterexample :
    hasColon (segOf "-3") = false ∧
    parse_as_unit (segOf "-3") =
      some (.error ⟨⟨1, 1, ['-', '3']⟩, .Unit (.UnitUnknown ['3'])⟩) ∧
    parse (segOf "-3") true = some (some (.ok ⟨3 * NANOS_PER_SEC, true⟩)) :=
  ⟨rfl, rfl, rfl⟩

/-- C1 (amended): the dispatcher decides every `:`-containing input
entirely by the colon grammar; a colon-free input is offered to the unit
grammar first and its success is authoritative (subject to the
disallowed-negative check), but on unit-grammar failure the colon
grammar's result — success or error — is returned; no error of the two
grammars is ever merged. -/
theorem c1_dispatch_amended (gs : Seg) (b : Bool) :
    (hasColon gs = true → parse gs b = (parse_as_sw gs b).map Option.some) ∧
    ((flat gs).isEmpty = false → hasColon gs = false →
      (∀ r, parse_as_unit gs = some (.ok r) → (r.is_neg && !b) = false →
        parse gs b = some (some (.ok r))) ∧
      (∀ e, parse_as_unit gs = some (.error e) →
        parse gs b = (parse_as_sw gs b).map Option.some)) := by
  constructor
  · intro hcol
    have hemp : (flat gs).isEmpty = false := by
      cases hflat : flat gs with
      | nil => rw [hasColon, hflat] at hcol; simp at hcol
      | cons c cs => simp [List.isEmpty]
    exact parse_unfold_colon gs b hemp hcol
  · intro hemp hcol
    constructor
    · intro r hunit hneg
      rw [parse_unfold_nocolon_ok gs b r hemp hcol hunit, hneg]
      rfl
    · intro e hunit
      exact parse_unfold_nocolon_err gs b e hemp hcol hunit

/-- C1 (witness for the amended claim): both branches at concrete
inputs. -/
theorem c1_dispatch_witness :
    parse (segOf "1:30") true = (parse_as_sw (segOf "1:30") true).map Option.some ∧
    parse (segOf "-3") true = (parse_as_sw (segOf "-3") true).map Option.some ∧
    parse (segOf "1.5h") true = some (some (.ok ⟨5400 * NANOS_PER_SEC, false⟩)) := by
  refine ⟨(c1_dispatch_amended (segOf "1:30") true).1 rfl, ?_, ?_⟩
  · exact ((c1_dispatch_amended (segOf "-3") true).2 rfl rfl).2
      ⟨⟨1, 1, ['-', '3']⟩, .Unit (.UnitUnknown ['3'])⟩ rfl
  · exact ((c1_dispatch_amended (segOf "1.5h") true).2 rfl rfl).1
      ⟨5400 * NANOS_PER_SEC, false⟩ rfl rfl

/-- C2: every error of the colon grammar has gone through the
`ParseErr::new` normalization, so no returned error kind is the raw
integer-overflow `Int` kind — overflow always surfaces as
`DurationOverflow` naming the group.  Concretely: an hours field whose
value times 3600 exceeds `u64::MAX` seconds yields
`DurationOverflow(Hours)` (via the checked multiply), and a field whose
digits overflow the underlying 64-bit parser (here: twenty nines in the
minutes field) also yields `DurationOverflow`, not an integer parse
error. -/
theorem c2_overflow_mapped :
    (∀ gs b e, parse_as_sw gs b = some (.error e) →
      ∀ g, e.kind ≠ .Sw (.Int g .PosOverflow)) ∧
    parse_as_sw (segOf "5124095576030432:0:0") true =
      some (.error ⟨⟨0, 16, flat (segOf "5124095576030432:0:0")⟩,
        .Sw (.DurationOverflow .Hours)⟩) ∧
    parse_as_sw (segOf "99999999999999999999:3") true =
      some (.error ⟨⟨0, 20, flat (segOf "99999999999999999999:3")⟩,
        .Sw (.DurationOverflow .Minutes)⟩) :=
  ⟨parse_as_sw_clean, rfl, rfl⟩

/-- C2 (witness): the general statement applied at the concrete
hours-overflow input. -/
theorem c2_overflow_mapped_witness :
    (ParseErr.mk ⟨0, 16, flat (segOf "5124095576030432:0:0")⟩
        (.Sw (.DurationOverflow .Hours))).kind ≠ .Sw (.Int .Hours .PosOverflow) :=
  c2_overflow_mapped.1 (segOf "5124095576030432:0:0") true _ rfl .Hours

/-- C3: the dispatcher returns `None` (modelled as `some none`) exactly
for the empty input, and a nonempty input gets `Some` of a result — but
the latter only up to the unit-grammar span bug: on `" .s"` the program
panics (the mis-computed fractional span underflows and the subsequent
slice is out of bounds), so nothing is returned at all, which the
embedding reports as `none`. -/
theorem c3_empty_none_eval :
    (∀ b, parse [] b = some none) ∧
    (∀ b, parse (segOf "") b = some none) ∧
    parse (segOf "3s") false = some (some (.ok ⟨3 * NANOS_PER_SEC, false⟩)) ∧
    parse (segOf " .s") true = none :=
  ⟨fun _ => rfl, fun _ => rfl, rfl, rfl⟩

/-- C4: right-anchoring with empty groups defaulting to zero — all five
spellings of "3 seconds" parse to the same `ReadDur`. -/
theorem c4_right_anchoring :
    parse_as_sw (segOf "3") true = some (.ok ⟨3 * NANOS_PER_SEC, false⟩) ∧
    parse_as_sw (segOf ":3") true = some (.ok ⟨3 * NANOS_PER_SEC, false⟩) ∧
    parse_as_sw (segOf "0:3") true = some (.ok ⟨3 * NANOS_PER_SEC, false⟩) ∧
    parse_as_sw (segOf "::3") true = some (.ok ⟨3 * NANOS_PER_SEC, false⟩) ∧
    parse_as_sw (segOf "0::3") true = some (.ok ⟨3 * NANOS_PER_SEC, false⟩) :=
  ⟨rfl, rfl, rfl, rfl, rfl⟩

/-- C5 (counterexample): the claim says any `+`/`-` token that is not
the first character yields `UnexpectedSign`.  In `"0-0:0:0:0"` the `-`
is not the first character (the token stream of the reverse scan shows a
`Neg` token in position 7 of 9, i.e. not the reverse-final token), yet
the parse reports `UnexpectedColon` — the fourth colon, scanned before
the sign is ever reached. -/
theorem c5_sign_counterexample :
    (swTokens (segOf "0-0:0:0:0")).map SwToken.typ =
      [.Data, .Colon, .Data, .Colon, .Data, .Colon, .Data, .Neg, .Data] ∧
    parse_as_sw (segOf "0-0:0:0:0") true =
      some (.error ⟨⟨3, 1, flat (segOf "0-0:0:0:0")⟩, .Sw .UnexpectedColon⟩) :=
  ⟨rfl, rfl⟩

/-- C5 (amended): a sign is accepted only as the very first (forward)
character: `parse("-3", true)` is 3 seconds negative and
`parse("3-", true)` is `UnexpectedSign`; in general, whenever the colon
grammar succeeds, every sign token of the lexer's (reverse) token stream
was its final token, i.e. the forward-first character — a sign anywhere
else never parses successfully, and surfaces as `UnexpectedSign` when
the reverse scan reaches it before any other error. -/
theorem c5_sign_amended :
    parse (segOf "-3") true = some (some (.ok ⟨3 * NANOS_PER_SEC, true⟩)) ∧
    parse (segOf "3-") true =
      some (some (.error ⟨⟨1, 1, flat (segOf "3-")⟩, .Sw (.UnexpectedSign true)⟩)) ∧
    (∀ gs b r, parse_as_sw gs b = some (.ok r) →
      ∀ i (hi : i < (swTokens gs).length),
        (((swTokens gs).get ⟨i, hi⟩).typ = .Pos ∨ ((swTokens gs).get ⟨i, hi⟩).typ = .Neg) →
        i + 1 = (swTokens gs).length) ∧
    (∀ src t rest cur gr n nsp, (t.typ = .Pos ∨ t.typ = .Neg) → rest ≠ [] →
      lexLoop src (t :: rest) cur gr n nsp =
        .error ⟨t.span, .Sw (.UnexpectedSign (t.typ = SwTokenKind.Neg))⟩) := by
  refine ⟨rfl, rfl, ?_, ?_⟩
  · intro gs b r h i hi hsign
    obtain ⟨⟨gr, nsp, hlex⟩, -⟩ := parse_as_sw_ok_lex gs b r h
    unfold lexPhase at hlex
    exact lexLoop_ok_sign_last _ _ _ _ _ _ _ hlex i hi hsign
  · intro src t rest cur gr n nsp hsign hrest
    have hre : rest.isEmpty = false := by
      cases rest with
      | nil => exact absurd rfl hrest
      | cons a as => rfl
    obtain ⟨typ, span⟩ := t
    rcases hsign with hs | hs <;> subst hs <;> cases cur <;>
      simp only [lexLoop, hre, Bool.false_eq_true, if_false] <;> rfl

/-- C5 (witness for the amended claim): on the accepted `"-3"` the sign
token is indeed the final token of the two-token stream. -/
theorem c5_sign_witness :
    1 + 1 = (swTokens (segOf "-3")).length :=
  c5_sign_amended.2.2.1 (segOf "-3") true ⟨3 * NANOS_PER_SEC, true⟩ rfl 1 (by decide)
    (Or.inr rfl)

/-- C6: with negatives disallowed the parser never succeeds with a
negative (or silently sign-flipped) value: any success under
`allow_negative = false` has `is_neg = false`, and any input that parses
(with negatives allowed) to a negative value yields the `Negative` error
when negatives are disallowed; concretely `parse(" -5s", false)` is
`Negative`. -/
theorem c6_negative_enforced :
    (∀ gs r, parse gs false = some (some (.ok r)) → r.is_neg = false) ∧
    (∀ gs r, parse gs true = some (some (.ok r)) → r.is_neg = true →
      ∃ e, parse gs false = some (some (.error e)) ∧ e.kind = .Negative) ∧
    parse (segOf " -5s") false =
      some (some (.error ⟨⟨1, 1, flat (segOf " -5s")⟩, .Negative⟩)) := by
  refine ⟨?_, ?_, rfl⟩
  · intro gs r h
    unfold parse at h
    split at h
    · exact absurd h (by simp)
    · split at h
      · -- colon branch
        split at h
        · exact absurd h (by simp)
        · rename_i r2 heq
          have : r2 = .ok r := by
            injection h with h1; injection h1
          subst this
          exact (parse_as_sw_ok_lex gs false r heq).2 rfl
      · -- unit branch
        split at h
        · exact absurd h (by simp)
        · rename_i u hunit
          split at h
          · exact absurd h (by simp)
          · rename_i hcond
            have hur : u = r := by
              injection h with h1; injection h1 with h2; injection h2
            subst hur
            simpa using hcond
        · rename_i e0 hunit
          split at h
          · exact absurd h (by simp)
          · rename_i r2 heq
            have : r2 = .ok r := by
              injection h with h1; injection h1
            subst this
            exact (parse_as_sw_ok_lex gs false r heq).2 rfl
  · intro gs r h hneg
    unfold parse at h
    split at h
    · exact absurd h (by simp)
    · rename_i hemp
      have hemp2 : (flat gs).isEmpty = false := by
        cases hf : (flat gs).isEmpty
        · rfl
        · exact absurd hf hemp
      split at h
      · -- colon branch
        rename_i hcol
        split at h
        · exact absurd h (by simp)
        · rename_i r2 heq
          have : r2 = .ok r := by
            injection h with h1; injection h1
          subst this
          obtain ⟨⟨gr, nsp, hlex⟩, -⟩ := parse_as_sw_ok_lex gs true r heq
          rw [hneg] at hlex
          obtain ⟨sp, rfl⟩ : ∃ sp, nsp = some sp := by
            have hlex2 := hlex
            unfold lexPhase at hlex2
            have := lexLoop_ok_negspan _ _ _ _ _ _ _ _ hlex2 (by simp)
            cases nsp with
            | none => simp at this
            | some sp => exact ⟨sp, rfl⟩
          refine ⟨⟨sp, .Negative⟩, ?_, rfl⟩
          rw [parse_unfold_colon gs false hemp2 hcol,
            parse_as_sw_neg_false gs gr sp hlex]
          rfl
      · -- unit branch
        rename_i hcol
        have hcol2 : hasColon gs = false := by
          cases hc : hasColon gs
          · rfl
          · exact absurd hc hcol
        split at h
        · exact absurd h (by simp)
        · rename_i u hunit
          split at h
          · exact absurd h (by simp)
          · rename_i hcond
            have hur : u = r := by
              injection h with h1; injection h1 with h2; injection h2
            subst hur
            refine ⟨⟨ByteSpan.new_all (flat gs), .Negative⟩, ?_, rfl⟩
            rw [parse_unfold_nocolon_ok gs false u hemp2 hcol2 hunit, hneg]
            rfl
        · rename_i e0 hunit
          split at h
          · exact absurd h (by simp)
          · rename_i r2 heq
            have : r2 = .ok r := by
              injection h with h1; injection h1
            subst this
            obtain ⟨⟨gr, nsp, hlex⟩, -⟩ := parse_as_sw_ok_lex gs true r heq
            rw [hneg] at hlex
            obtain ⟨sp, rfl⟩ : ∃ sp, nsp = some sp := by
              have hlex2 := hlex
              unfold lexPhase at hlex2
              have := lexLoop_ok_negspan _ _ _ _ _ _ _ _ hlex2 (by simp)
              cases nsp with
              | none => simp at this
              | some sp => exact ⟨sp, rfl⟩
            refine ⟨⟨sp, .Negative⟩, ?_, rfl⟩
            rw [parse_unfold_nocolon_err gs false e0 hemp2 hcol2 hunit,
              parse_as_sw_neg_false gs gr sp hlex]
            rfl

/-- C6 (witness): `"-3"` parses negative when allowed, and the general
statement turns it into `Negative` when disallowed. -/
theorem c6_negative_witness :
    ∃ e, parse (segOf "-3") false = some (some (.error e)) ∧ e.kind = .Negative :=
  c6_negative_enforced.2.1 (segOf "-3") ⟨3 * NANOS_PER_SEC, true⟩ rfl rfl

/-- C7: the documented policy is that fractional digits beyond the ninth
are truncated, so parsing should equal parsing with the fraction cut to
nine digits — and it does on inputs without leading whitespace (first
two conjuncts agree), but the mis-sized fractional span of
`parse/unit.rs` line 122 (`dur_span.len - tmp_sub_start`, not accounting
for `dur_span.start`) makes `"  1.1234567899s"` parse to `.12345678`
(123456780 ns) while its nine-digit truncation `"  1.123456789s"`
parses to `.1234567` (123456700 ns): the results differ, refuting the
claim for the code as written. -/
theorem c7_truncation_eval :
    parse_as_unit (segOf "1.1234567899s") = some (.ok ⟨1123456789, false⟩) ∧
    parse_as_unit (segOf "1.123456789s") = some (.ok ⟨1123456789, false⟩) ∧
    parse_as_unit (segOf "  1.1234567899s") = some (.ok ⟨1123456780, false⟩) ∧
    parse_as_unit (segOf "  1.123456789s") = some (.ok ⟨1123456700, false⟩) :=
  ⟨rfl, rfl, rfl, rfl⟩

/-- C8: the unit grammar takes the unit from the last grapheme cluster
of the end-trimmed input; no clusters at all gives `UnitMissing`, and an
unrecognized final cluster gives `UnitUnknown` carrying that whole
cluster, with the error span being exactly the cluster's byte range. -/
theorem c8_unit_detection (gs : Seg) :
    (trimEndSeg gs = [] →
      parse_as_unit gs = some (.error ⟨⟨0, 0, []⟩, .Unit .UnitMissing⟩)) ∧
    (∀ pre g, trimEndSeg gs = pre ++ [g] → Unit'.from_grapheme g = none →
      parse_as_unit gs = some (.error ⟨⟨byteLen (flat pre), clusterBytes g,
        flat (pre ++ [g])⟩, .Unit (.UnitUnknown g)⟩)) := by
  constructor
  · intro h
    unfold parse_as_unit
    rw [h]
    rfl
  · intro pre g hpre hg
    unfold parse_as_unit
    rw [hpre]
    show (match (gidx (pre ++ [g])).getLast? with
      | none => _
      | some (try_unit_idx, try_unit) => _) = _
    rw [gidx, gidxFrom_getLast]
    simp only [Nat.zero_add]
    rw [hg]
    rfl

/-- C8 (witness): an all-whitespace input trims to nothing
(`UnitMissing`), and a trailing 4-byte emoji cluster is carried whole in
`UnitUnknown` with its exact span. -/
theorem c8_unit_witness :
    parse_as_unit (segOf "   ") = some (.error ⟨⟨0, 0, []⟩, .Unit .UnitMissing⟩) ∧
    parse_as_unit [['1'], ['🙂']] =
      some (.error ⟨⟨1, 4, ['1', '🙂']⟩, .Unit (.UnitUnknown ['🙂'])⟩) := by
  constructor
  · exact (c8_unit_detection (segOf "   ")).1 rfl
  · exact (c8_unit_detection [['1'], ['🙂']]).2 [['1']] ['🙂'] rfl rfl

/-- C9 (code bug, evaluated at the failing input): on `" .s"` the unit
grammar builds the fractional span with length
`dur_span.len - tmp_sub_start = 1 - 2`, which underflows `usize`
(panicking outright in a debug build); the wrapped span violates
`start + len <= source.len()` and its `get` slice is out of bounds, so
the parse panics — refuting the claim that every constructed span is
in-bounds and slicing never panics. -/
theorem c9_span_eval :
    parse_as_unit (segOf " .s") = none ∧
    usizeSub 1 2 = USIZE - 1 ∧
    (ByteSpan.mk 2 (usizeSub 1 2) [' ', '.', 's']).get = none :=
  ⟨rfl, rfl, rfl⟩

/-- C10: whenever the lexing phase of the colon grammar finishes with
`is_neg = true`, a sign span was recorded, so the `neg_span.unwrap()` on
the disallowed-negative path cannot panic (that path consumes exactly
this lexing result, for either value of `allow_neg`). -/
theorem c10_neg_span_recorded :
    ∀ gs gr nsp, lexPhase gs = .ok (gr, true, nsp) → nsp.isSome = true := by
  intro gs gr nsp h
  unfold lexPhase at h
  exact lexLoop_ok_negspan _ _ _ _ _ _ _ _ h (by simp)

/-- C10 (witness): the lexing phase of `"-3"` ends negative with the
sign span recorded. -/
theorem c10_neg_span_witness :
    (some (ByteSpan.new 0 1 ['-', '3'])).isSome = true :=
  c10_neg_span_recorded (segOf "-3")
    ⟨⟨0, 0, ['-', '3']⟩, ⟨0, 0, ['-', '3']⟩, ⟨1, 1, ['-', '3']⟩, ⟨0, 0, ['-', '3']⟩⟩
    (some (ByteSpan.new 0 1 ['-', '3'])) rfl

end Sw
